import Mathlib

/-!
Verification development for the DCRP (Docker Container Reverse Proxy)
repository: the route data model, the Route Store merge and conflict policy,
the reconciler's idempotent apply, the discovery label contract, and the
web-UI helper functions (status pipeline, upstream formatting, table
resizing and sorting).

The administrative web UI's JavaScript (src/web-ui/static/js/app.js and the
page scripts) is embedded directly.  The backend core (Route Store, Route
Reconciler, Discovery Agent, SSH Transport, Management API) is not shipped
under src/, so those components are modelled from the specification's own
words; each such definition carries a doc comment saying so.
-/

namespace DCRP

/- ## Data model (spec section 3) -/

/-- Provenance tag of a RouteIntent: auto-discovered (monitor), from the
static route file, or manually added via the dashboard. -/
inductive Origin
  | monitor
  | static
  | manual
deriving DecidableEq, Repr

/-- Modelled from the spec: the RouteIntent record of section 3 (the Route
Store component that owns it is not under src/). -/
structure RouteIntent where
  route_id : String
  target_host : String
  upstream : String
  protocol : String
  force_ssl : Bool
  websocket : Bool
  origin : Origin
  version : Nat
deriving DecidableEq, Repr

/-- Modelled from the spec: a RouteIntent as recorded in the Route Store,
together with its rejection flag (section 4.3: a colliding monitor-origin
intent is recorded but flagged rejected). -/
structure StoredIntent where
  intent : RouteIntent
  rejected : Bool
deriving DecidableEq, Repr

/-- The Route Store's map, represented as an association list keyed by
route_id. -/
abbrev RouteStore := List StoredIntent

def storedKey (s : StoredIntent) : String := s.intent.route_id

/- ## Generic keyed association-list operations -/

/-- Find the first element whose key equals k. -/
def lookupBy (key : α → String) : List α → String → Option α
  | [], _ => none
  | a :: as, k => if key a = k then some a else lookupBy key as k

/-- Idempotent upsert: replace the first element sharing x's key, or append
x when no element has that key. -/
def upsertBy (key : α → String) : List α → α → List α
  | [], x => [x]
  | a :: as, x => if key a = key x then x :: as else a :: upsertBy key as x

/-- All keys in the list are pairwise distinct. -/
abbrev KeysDistinct (key : α → String) (l : List α) : Prop :=
  l.Pairwise fun a b => key a ≠ key b

/- ## Route Store: merge, conflict policy, version guard (spec section 4.3) -/

/-- Modelled from the spec: collision detection across origins keyed by
target_host (section 4.3) - does the store hold a static- or manual-origin
intent for this public hostname? -/
def hasNonMonitorFor : RouteStore → String → Bool
  | [], _ => false
  | s :: ss, h =>
    if s.intent.target_host = h ∧ s.intent.origin ≠ Origin.monitor then true
    else hasNonMonitorFor ss h

/-- Flag one stored intent rejected when it is monitor-origin and targets
host h; any other entry is left unchanged. -/
def flagOne (h : String) (s : StoredIntent) : StoredIntent :=
  if s.intent.origin = Origin.monitor ∧ s.intent.target_host = h then
    { s with rejected := true }
  else s

/-- Flag every monitor-origin intent for target_host h as rejected. -/
def flagMonitors (store : RouteStore) (h : String) : RouteStore :=
  store.map (flagOne h)

/-- Modelled from the spec: the Route Store's conflict policy (section 4.3,
the component is not under src/).  A monitor-origin intent that collides
with an existing static/manual route for the same target_host is recorded
but flagged rejected; a static- or manual-origin intent takes precedence,
flagging any colliding monitor-origin intents as rejected.  Either way the
intent is upserted by route_id, never silently dropped. -/
def applyConflict (store : RouteStore) (r : RouteIntent) : RouteStore :=
  if r.origin = Origin.monitor then
    upsertBy storedKey store
      { intent := r, rejected := hasNonMonitorFor store r.target_host }
  else
    upsertBy storedKey (flagMonitors store r.target_host)
      { intent := r, rejected := false }

/-- Modelled from the spec: intent insertion with the version guard
(section 4.3): an intent whose version is lower than the version already
stored for its route_id is discarded; otherwise it goes through conflict
resolution. -/
def insertIntent (store : RouteStore) (r : RouteIntent) : RouteStore :=
  match lookupBy storedKey store r.route_id with
  | some s => if r.version < s.intent.version then store else applyConflict store r
  | none => applyConflict store r

/-- The store reached from empty by a sequence of intent insertions. -/
def buildStore (rs : List RouteIntent) : RouteStore :=
  rs.foldl insertIntent []

/-- The conflict-policy invariant of the Route Store: static/manual intents
are never rejected (they are the applied ones), and a monitor-origin intent
that coexists with a static/manual intent for the same target_host is
flagged rejected. -/
def StoreInv (store : RouteStore) : Prop :=
  (∀ s ∈ store, s.intent.origin ≠ Origin.monitor → s.rejected = false) ∧
  (∀ s ∈ store, s.intent.origin = Origin.monitor →
    (∃ t ∈ store, t.intent.origin ≠ Origin.monitor ∧
      t.intent.target_host = s.intent.target_host) →
    s.rejected = true)

/- ## Management API deletion and dashboard actions column -/

/-- Remove every element whose key equals k. -/
def removeByKey (key : α → String) : List α → String → List α
  | [], _ => []
  | a :: as, k =>
    if key a = k then removeByKey key as k else a :: removeByKey key as k

/-- Modelled from the spec: DELETE /routes/route_id of the Management API
(section 6, the component is not under src/): 403 and no change when the
route is monitor-origin, 204 with the route removed otherwise, 404 when the
route_id is unknown. -/
def deleteRoute (store : RouteStore) (rid : String) : Nat × RouteStore :=
  match lookupBy storedKey store rid with
  | none => (404, store)
  | some s =>
    if s.intent.origin = Origin.monitor then (403, store)
    else (204, removeByKey storedKey store rid)

/-- Which controls the routes table's actions column renders for a row.
The HTML emitted by the renderer is abstracted to the controls it holds:
either the managed-by-monitor note with no edit/delete controls, or an edit
link (with its href) plus a delete button (with its route id and host). -/
inductive ActionsCell
  | managedByMonitor
  | editDeleteControls (editHref : String) (deleteRouteId : String) (deleteHost : String)
deriving DecidableEq, Repr

/-- The actions column renderer from src/unnamed/part_000 (lines 97-124):
a monitor-origin row renders the managed-by-monitor note; every other row
renders the edit link /routes/edit/route_id and the delete button wired to
confirmDeleteRoute(route_id, host). -/
def actionsRenderer (source route_id host : String) : ActionsCell :=
  if source = "monitor" then ActionsCell.managedByMonitor
  else ActionsCell.editDeleteControls ("/routes/edit/" ++ route_id) route_id host

/- ## Route Reconciler: idempotent apply (spec sections 3 and 4.4) -/

/-- Modelled from the spec: the applied Route record of section 3 (the
Reconciler that owns it is not under src/).  last_applied_at is a wall-clock
timestamp and is omitted. -/
structure Route where
  route_id : String
  applied_config_fragment : String
  checksum : String
deriving DecidableEq, Repr

/-- Modelled from the spec: the proxy configuration fragment derived
deterministically from a RouteIntent (section 4.5: force_ssl, websocket and
upstream map deterministically; no feature flag is dropped). -/
def configFragment (r : RouteIntent) : String :=
  r.protocol ++ "|" ++ r.target_host ++ "|" ++ r.upstream ++ "|" ++
    (if r.force_ssl then "ssl" else "nossl") ++ "|" ++
    (if r.websocket then "ws" else "nows")

/-- Modelled from the spec: the checksum of the applied configuration
fragment, a deterministic function of the fragment (embedded as the
fragment itself, an injective hash). -/
def checksumOf (r : RouteIntent) : String := configFragment r

/-- The applied Route produced for a RouteIntent. -/
def mkRoute (r : RouteIntent) : Route :=
  { route_id := r.route_id
    applied_config_fragment := configFragment r
    checksum := checksumOf r }

/-- The applied state: Route objects keyed by route_id. -/
abbrev AppliedState := List Route

def routeKey (a : Route) : String := a.route_id

/-- Modelled from the spec: the Reconciler's apply step (section 4.4, the
component is not under src/).  Applies are idempotent upserts keyed by
route_id; applying an already-applied RouteIntent is a no-op detected by
checksum match. -/
def applyIntent (app : AppliedState) (r : RouteIntent) : AppliedState :=
  match lookupBy routeKey app r.route_id with
  | some a => if a.checksum = checksumOf r then app else upsertBy routeKey app (mkRoute r)
  | none => upsertBy routeKey app (mkRoute r)

/- ## Discovery Agent: label contract (spec sections 4.1 and 6) -/

/-- Find the value of a container label. -/
def lookupLabel : List (String × String) → String → Option String
  | [], _ => none
  | (k, v) :: ls, key => if k = key then some v else lookupLabel ls key

/-- Parse a boolean label value; anything but the literal strings true and
false is malformed. -/
def parseBoolLabel (s : String) : Option Bool :=
  if s = "true" then some true else if s = "false" then some false else none

/-- Outcome of inspecting one container start event: either a derived
RouteIntent, or the container is skipped with a warning (never fatal). -/
inductive DiscoveryResult
  | intent (r : RouteIntent)
  | skipped (warning : String)
deriving DecidableEq, Repr

/-- Modelled from the spec: the deterministic route_id derived from host_id
plus container identity (section 4.1). -/
def routeIdFor (hostId containerId : String) : String :=
  "route-" ++ hostId ++ "-" ++ containerId

/-- Modelled from the spec: the Discovery Agent's handling of a container
start event (section 4.1, the component is not under src/).  A container is
routable only if the dcrp.enable label is present and true and the
dcrp.host label is present; a missing or malformed required label skips the
container with a warning.  Label names and the optional dcrp.port,
dcrp.ssl and dcrp.websocket labels follow section 6 and the README. -/
def onContainerStart (hostId containerId containerAddr : String) (eventVersion : Nat)
    (labels : List (String × String)) : DiscoveryResult :=
  match lookupLabel labels "dcrp.enable" with
  | none => DiscoveryResult.skipped "container ignored: no dcrp.enable label"
  | some ev =>
    match parseBoolLabel ev with
    | none => DiscoveryResult.skipped "container skipped: malformed dcrp.enable label"
    | some false => DiscoveryResult.skipped "container ignored: dcrp.enable is not true"
    | some true =>
      match lookupLabel labels "dcrp.host" with
      | none => DiscoveryResult.skipped "container skipped: no dcrp.host label"
      | some h =>
        match ((lookupLabel labels "dcrp.port").getD "80").toNat? with
        | none => DiscoveryResult.skipped "container skipped: malformed dcrp.port label"
        | some port =>
          DiscoveryResult.intent
            { route_id := routeIdFor hostId containerId
              target_host := h
              upstream := containerAddr ++ ":" ++ toString port
              protocol := "http"
              force_ssl := ((lookupLabel labels "dcrp.ssl").bind parseBoolLabel).getD false
              websocket := ((lookupLabel labels "dcrp.websocket").bind parseBoolLabel).getD false
              origin := Origin.monitor
              version := eventVersion }

/- ## Health status and the dashboard status pipeline -/

/-- The navbar status badge rendered by updateStatusIndicator. -/
inductive Badge
  | online
  | offline
  | error
  | unknown
deriving DecidableEq, Repr

/-- updateStatusIndicator from src/web-ui/static/js/app.js (lines 56-80):
the badge is keyed by the classification string online / offline / error,
anything else rendering the Unknown badge. -/
def updateStatusIndicator (status : String) : Badge :=
  if status = "online" then Badge.online
  else if status = "offline" then Badge.offline
  else if status = "error" then Badge.error
  else Badge.unknown

/-- checkSystemStatus from src/web-ui/static/js/app.js (lines 37-50): a
successful /api/health fetch (some status) is classified online when the
status field is healthy or ok and error otherwise; a failed fetch (none)
is classified offline.  The classification feeds updateStatusIndicator. -/
def checkSystemStatus (response : Option String) : Badge :=
  match response with
  | some st => updateStatusIndicator (if st = "healthy" ∨ st = "ok" then "online" else "error")
  | none => updateStatusIndicator "offline"

/-- updateStatusIndicator from src/unnamed/part_003 (lines 112-129), the
dashboard-page variant fed the raw status string: healthy or ok renders
Online, offline renders Offline, anything else renders Error. -/
def updateStatusIndicatorDashboard (status : String) : Badge :=
  if status = "healthy" ∨ status = "ok" then Badge.online
  else if status = "offline" then Badge.offline
  else Badge.error

/-- Per-host connection state (spec section 3). -/
inductive ConnectionState
  | disconnected
  | connecting
  | connected
  | degraded
deriving DecidableEq, Repr

/-- The aggregate health status reported by GET /health. -/
inductive HealthStatus
  | healthy
  | degraded
  | offline
deriving DecidableEq, Repr

/-- The status string serialized into the GET /health response. -/
def healthStatusString : HealthStatus → String
  | HealthStatus.healthy => "healthy"
  | HealthStatus.degraded => "degraded"
  | HealthStatus.offline => "offline"

/-- Modelled from the spec: the GET /health aggregate of per-host
connection states (section 6, the Management API is not under src/): all
hosts connected is healthy, none connected is offline, a mix is
degraded. -/
def healthAggregate (hosts : List ConnectionState) : HealthStatus :=
  if hosts.all fun s => decide (s = ConnectionState.connected) then HealthStatus.healthy
  else if hosts.any fun s => decide (s = ConnectionState.connected) then HealthStatus.degraded
  else HealthStatus.offline

/- ## Per-host workers and host isolation (spec section 5) -/

/-- State of one host's worker (Discovery Agent plus SSH Transport). -/
inductive WorkerState
  | running
  | reconnecting
  | degraded
deriving DecidableEq, Repr

/-- A monitor-origin route together with the host whose Discovery Agent
produced it. -/
structure MonitorRoute where
  route_id : String
  origin_host : String
deriving DecidableEq, Repr

/-- The concurrent system: one worker per configured host and the
monitor-origin routes, each tagged with its origin host. -/
structure SystemState where
  workers : List (String × WorkerState)
  routes : List MonitorRoute
deriving DecidableEq, Repr

def workerKey (p : String × WorkerState) : String := p.1

/-- Set the state of host h's worker, leaving every other worker alone. -/
def setWorker (ws : List (String × WorkerState)) (h : String) (st : WorkerState) :
    List (String × WorkerState) :=
  ws.map fun p => if p.1 = h then (p.1, st) else p

/-- A host-scoped event: a stream disconnect (retry with backoff), an SSH
authentication failure (terminal degraded), or a reconnect resync carrying
the route_ids of the containers actually running on the host. -/
inductive HostEvent
  | streamDisconnect
  | authFailure
  | resync (running : List String)
deriving DecidableEq, Repr

/-- During host a's resync, drop exactly a's routes that are no longer
backed by a running container on a; every other host's routes are kept. -/
def keepRoutes : List MonitorRoute → String → List String → List MonitorRoute
  | [], _, _ => []
  | r :: rs, a, running =>
    if r.origin_host = a ∧ r.route_id ∉ running then keepRoutes rs a running
    else r :: keepRoutes rs a running

/-- Modelled from the spec: the effect of a host-scoped event on the system
(section 5, the per-host workers are not under src/).  A failure or
disconnect of host a touches only a's worker; a resync replaces exactly a's
routes with the ones re-derived from a's running containers. -/
def hostStep (sys : SystemState) (a : String) : HostEvent → SystemState
  | HostEvent.streamDisconnect =>
    { sys with workers := setWorker sys.workers a WorkerState.reconnecting }
  | HostEvent.authFailure =>
    { sys with workers := setWorker sys.workers a WorkerState.degraded }
  | HostEvent.resync running =>
    { workers := setWorker sys.workers a WorkerState.running
      routes := keepRoutes sys.routes a running ++
        running.map fun rid => { route_id := rid, origin_host := a } }

/-- The routes originating from host b. -/
def routesOf : List MonitorRoute → String → List MonitorRoute
  | [], _ => []
  | r :: rs, b => if r.origin_host = b then r :: routesOf rs b else routesOf rs b

/- ## SortableResizableTable.doResize (src/unnamed/part_001 lines 175-197) -/

/-- The resize-relevant state of a SortableResizableTable: whether a drag
is active, whether a header is captured, the drag anchor (startX,
startWidth) and the widths the drag writes (the header's and those of the
target column's cells). -/
structure ResizeState where
  isResizing : Bool
  hasHeader : Bool
  startX : Int
  startWidth : Int
  headerWidth : Int
  cellWidths : List Int
deriving DecidableEq, Repr

/-- doResize from src/unnamed/part_001 (lines 175-197): bail out unless a
drag is active with a captured header; compute newWidth = startWidth +
(pageX - startX); return unchanged when newWidth is below the 80px
minimum; otherwise write newWidth to the header and every cell of the
target column. -/
def doResize (st : ResizeState) (pageX : Int) : ResizeState :=
  if !st.isResizing || !st.hasHeader then st
  else
    let deltaX := pageX - st.startX
    let newWidth := st.startWidth + deltaX
    let minWidth : Int := 80
    if newWidth < minWidth then st
    else { st with headerWidth := newWidth, cellWidths := st.cellWidths.map fun _ => newWidth }

/- ## sortRoutes comparator (src/unnamed/part_003 lines 28-54) -/

/-- JS `s.toLowerCase()`: lowercase each character (embedded on the
character list so it evaluates in the kernel). -/
def strToLower (s : String) : String :=
  String.mk (s.data.map Char.toLower)

/-- The row comparison inside sortRoutes (src/unnamed/part_003 lines
34-47): each row's dataset value for the sort column (missing compares as
the empty string, JS dataset[column] or-else the empty string) is
lowercased; the comparison result is -1, 0 or 1, and direction desc
negates it. -/
def rowCompare (direction : String) (a b : Option String) : Int :=
  let aVal := strToLower (a.getD "")
  let bVal := strToLower (b.getD "")
  let result : Int := if aVal < bVal then -1 else if bVal < aVal then 1 else 0
  if direction = "desc" then -result else result

/- ## strIncludes and formatUpstream (src/web-ui/static/js/app.js) -/

/-- JS `s.includes(pat)`: substring search, embedded as infix search on the
character lists. -/
def strIncludes (s pat : String) : Bool :=
  decide (pat.toList <:+: s.toList)

/-- formatUpstream from src/web-ui/static/js/app.js (lines 194-199): if the
upstream string contains the substring "://" it is returned unchanged,
otherwise it is prefixed with "http://". -/
def formatUpstream (upstream : String) : String :=
  if strIncludes upstream "://" then upstream
  else "http://" ++ upstream

/- ## Concrete inputs used by the witnesses -/

/-- A static-origin route intent for api.example.com. -/
def demoStatic : RouteIntent :=
  { route_id := "r-static", target_host := "api.example.com"
    upstream := "10.0.0.1:8080", protocol := "http"
    force_ssl := true, websocket := false, origin := Origin.static, version := 1 }

/-- A monitor-origin route intent colliding with demoStatic on
api.example.com. -/
def demoMonitor : RouteIntent :=
  { route_id := "r-mon", target_host := "api.example.com"
    upstream := "10.0.0.2:3000", protocol := "http"
    force_ssl := false, websocket := true, origin := Origin.monitor, version := 1 }

/-- A manual-origin route intent for app.example.com. -/
def demoManual : RouteIntent :=
  { route_id := "r-manual", target_host := "app.example.com"
    upstream := "backend:9000", protocol := "http"
    force_ssl := false, websocket := false, origin := Origin.manual, version := 2 }

/-- A stale copy of demoStatic: same route_id, lower version. -/
def demoStaleStatic : RouteIntent := { demoStatic with version := 0 }

/-- Routable container labels for the discovery witness. -/
def demoLabels : List (String × String) :=
  [("dcrp.enable", "true"), ("dcrp.host", "app.example.com"), ("dcrp.port", "3000")]

/-- A two-host system for the isolation witness. -/
def demoSystem : SystemState :=
  { workers := [("host-a", WorkerState.running), ("host-b", WorkerState.running)]
    routes := [{ route_id := "ra", origin_host := "host-a" },
               { route_id := "rb", origin_host := "host-b" }] }

/- # Theorems -/

theorem mem_upsertBy {key : α → String} {l : List α} {x b : α}
    (hb : b ∈ upsertBy key l x) : b = x ∨ b ∈ l := by
  induction l with
  | nil => simpa [upsertBy] using hb
  | cons a as ih =>
    rw [upsertBy] at hb
    by_cases h : key a = key x
    · rw [if_pos h] at hb
      rcases List.mem_cons.mp hb with h1 | h1
      · exact Or.inl h1
      · exact Or.inr (List.mem_cons_of_mem a h1)
    · rw [if_neg h] at hb
      rcases List.mem_cons.mp hb with h1 | h1
      · exact Or.inr (h1 ▸ List.mem_cons_self a as)
      · rcases ih h1 with h2 | h2
        · exact Or.inl h2
        · exact Or.inr (List.mem_cons_of_mem a h2)

theorem exists_key_mem_upsertBy {key : α → String} {l : List α} {b : α} (x : α)
    (hb : b ∈ l) : ∃ c ∈ upsertBy key l x, key c = key b := by
  induction l with
  | nil => cases hb
  | cons a as ih =>
    rw [upsertBy]
    by_cases h : key a = key x
    · rw [if_pos h]
      rcases List.mem_cons.mp hb with h1 | h1
      · exact ⟨x, List.mem_cons_self _ _, by rw [← h, h1]⟩
      · exact ⟨b, List.mem_cons_of_mem _ h1, rfl⟩
    · rw [if_neg h]
      rcases List.mem_cons.mp hb with h1 | h1
      · exact ⟨a, List.mem_cons_self _ _, by rw [h1]⟩
      · rcases ih h1 with ⟨c, hc, hkc⟩
        exact ⟨c, List.mem_cons_of_mem _ hc, hkc⟩

theorem lookupBy_upsertBy_self {key : α → String} (l : List α) (x : α) :
    lookupBy key (upsertBy key l x) (key x) = some x := by
  induction l with
  | nil => simp [upsertBy, lookupBy]
  | cons a as ih =>
    rw [upsertBy]
    by_cases h : key a = key x
    · rw [if_pos h, lookupBy, if_pos rfl]
    · rw [if_neg h, lookupBy, if_neg h, ih]

theorem lookupBy_eq_some {key : α → String} {l : List α} {k : String} {a : α}
    (h : lookupBy key l k = some a) : a ∈ l ∧ key a = k := by
  induction l with
  | nil => cases h
  | cons b bs ih =>
    rw [lookupBy] at h
    by_cases hb : key b = k
    · rw [if_pos hb] at h
      cases h
      exact ⟨List.mem_cons_self _ _, hb⟩
    · rw [if_neg hb] at h
      rcases ih h with ⟨h1, h2⟩
      exact ⟨List.mem_cons_of_mem _ h1, h2⟩

theorem pairwise_upsertBy {key : α → String} {l : List α} (x : α)
    (h : KeysDistinct key l) : KeysDistinct key (upsertBy key l x) := by
  induction l with
  | nil => simp [upsertBy]
  | cons a as ih =>
    obtain ⟨ha, has⟩ := List.pairwise_cons.mp h
    rw [upsertBy]
    by_cases hk : key a = key x
    · rw [if_pos hk]
      exact List.pairwise_cons.mpr ⟨fun b hb => hk ▸ ha b hb, has⟩
    · rw [if_neg hk]
      refine List.pairwise_cons.mpr ⟨fun b hb => ?_, ih has⟩
      rcases mem_upsertBy hb with h1 | h1
      · rw [h1]; exact hk
      · exact ha b h1

theorem lookupBy_removeByKey {key : α → String} (l : List α) (k : String) :
    lookupBy key (removeByKey key l k) k = none := by
  induction l with
  | nil => rfl
  | cons a as ih =>
    rw [removeByKey]
    by_cases h : key a = k
    · rw [if_pos h]; exact ih
    · rw [if_neg h, lookupBy, if_neg h]; exact ih

theorem flagOne_intent (h : String) (s : StoredIntent) : (flagOne h s).intent = s.intent := by
  rw [flagOne]; split <;> rfl

theorem hasNonMonitorFor_of_mem {store : RouteStore} {t : StoredIntent} {h : String}
    (ht : t ∈ store) (ho : t.intent.origin ≠ Origin.monitor)
    (hh : t.intent.target_host = h) : hasNonMonitorFor store h = true := by
  induction store with
  | nil => cases ht
  | cons a as ih =>
    rw [hasNonMonitorFor]
    by_cases hc : a.intent.target_host = h ∧ a.intent.origin ≠ Origin.monitor
    · rw [if_pos hc]
    · rw [if_neg hc]
      rcases List.mem_cons.mp ht with h1 | h1
      · exact absurd ⟨h1 ▸ hh, h1 ▸ ho⟩ hc
      · exact ih h1

theorem storeInv_applyConflict {store : RouteStore} (r : RouteIntent)
    (hinv : StoreInv store) : StoreInv (applyConflict store r) := by
  obtain ⟨inv1, inv2⟩ := hinv
  rw [applyConflict]
  by_cases hm : r.origin = Origin.monitor
  · rw [if_pos hm]
    constructor
    · intro s hs ho
      rcases mem_upsertBy hs with h1 | h1
      · rw [h1] at ho
        exact absurd hm ho
      · exact inv1 s h1 ho
    · rintro s hs hmo ⟨t, htm, hto, hth⟩
      have htst : t ∈ store := by
        rcases mem_upsertBy htm with h1 | h1
        · rw [h1] at hto
          exact absurd hm hto
        · exact h1
      rcases mem_upsertBy hs with h1 | h1
      · rw [h1]
        show hasNonMonitorFor store r.target_host = true
        refine hasNonMonitorFor_of_mem htst hto ?_
        rw [hth, h1]
      · exact inv2 s h1 hmo ⟨t, htst, hto, hth⟩
  · rw [if_neg hm]
    constructor
    · intro s hs ho
      rcases mem_upsertBy hs with h1 | h1
      · rw [h1]
      · rcases List.mem_map.mp h1 with ⟨u, hu, hfu⟩
        have hui : s.intent = u.intent := by rw [← hfu, flagOne_intent]
        have huo : u.intent.origin ≠ Origin.monitor := by rw [← hui]; exact ho
        have : flagOne r.target_host u = u := by
          rw [flagOne, if_neg (fun hc => huo hc.1)]
        rw [← hfu, this]
        exact inv1 u hu huo
    · rintro s hs hmo ⟨t, htm, hto, hth⟩
      rcases mem_upsertBy hs with h1 | h1
      · rw [h1] at hmo
        exact absurd hmo hm
      · rcases List.mem_map.mp h1 with ⟨u, hu, hfu⟩
        have hui : s.intent = u.intent := by rw [← hfu, flagOne_intent]
        have huo : u.intent.origin = Origin.monitor := by rw [← hui]; exact hmo
        by_cases hcol : u.intent.target_host = r.target_host
        · have hflag : flagOne r.target_host u = { u with rejected := true } := by
            rw [flagOne, if_pos ⟨huo, hcol⟩]
          rw [← hfu, hflag]
        · have hus : u = s := by
            rw [← hfu, flagOne, if_neg (fun hc => hcol hc.2)]
          have htst : t ∈ flagMonitors store r.target_host := by
            rcases mem_upsertBy htm with h2 | h2
            · rw [h2] at hth
              rw [← hui] at hcol
              exact absurd hth.symm hcol
            · exact h2
          rcases List.mem_map.mp htst with ⟨v, hv, hfv⟩
          have hvi : t.intent = v.intent := by rw [← hfv, flagOne_intent]
          have hvo : v.intent.origin ≠ Origin.monitor := by rw [← hvi]; exact hto
          rw [← hus]
          refine inv2 u hu huo ⟨v, hv, hvo, ?_⟩
          rw [← hvi, hth, hui]

theorem storeInv_insertIntent {store : RouteStore} (r : RouteIntent)
    (hinv : StoreInv store) : StoreInv (insertIntent store r) := by
  cases hl : lookupBy storedKey store r.route_id with
  | none =>
    simp only [insertIntent, hl]
    exact storeInv_applyConflict r hinv
  | some s =>
    by_cases hv : r.version < s.intent.version
    · simp only [insertIntent, hl, if_pos hv]
      exact hinv
    · simp only [insertIntent, hl, if_neg hv]
      exact storeInv_applyConflict r hinv

theorem storeInv_nil : StoreInv ([] : RouteStore) :=
  ⟨fun s hs => absurd hs (List.not_mem_nil s), fun s hs => absurd hs (List.not_mem_nil s)⟩

theorem storeInv_foldl (rs : List RouteIntent) :
    ∀ store : RouteStore, StoreInv store → StoreInv (rs.foldl insertIntent store) := by
  induction rs with
  | nil => exact fun store h => h
  | cons r rs ih => exact fun store h => ih _ (storeInv_insertIntent r h)

theorem storeInv_buildStore (rs : List RouteIntent) : StoreInv (buildStore rs) :=
  storeInv_foldl rs [] storeInv_nil

theorem retained_applyConflict {store : RouteStore} {s : StoredIntent} (r : RouteIntent)
    (hs : s ∈ store) :
    ∃ s' ∈ applyConflict store r, s'.intent.route_id = s.intent.route_id := by
  rw [applyConflict]
  by_cases hm : r.origin = Origin.monitor
  · rw [if_pos hm]
    exact exists_key_mem_upsertBy _ hs
  · rw [if_neg hm]
    have hflag : flagOne r.target_host s ∈ flagMonitors store r.target_host :=
      List.mem_map.mpr ⟨s, hs, rfl⟩
    rcases exists_key_mem_upsertBy { intent := r, rejected := false } hflag with ⟨c, hc, hkc⟩
    refine ⟨c, hc, ?_⟩
    show c.intent.route_id = s.intent.route_id
    have : (flagOne r.target_host s).intent.route_id = s.intent.route_id := by
      rw [flagOne_intent]
    exact hkc.trans this

theorem retained_insertIntent {store : RouteStore} {s : StoredIntent} (r : RouteIntent)
    (hs : s ∈ store) :
    ∃ s' ∈ insertIntent store r, s'.intent.route_id = s.intent.route_id := by
  cases hl : lookupBy storedKey store r.route_id with
  | none =>
    simp only [insertIntent, hl]
    exact retained_applyConflict r hs
  | some t =>
    by_cases hv : r.version < t.intent.version
    · simp only [insertIntent, hl, if_pos hv]
      exact ⟨s, hs, rfl⟩
    · simp only [insertIntent, hl, if_neg hv]
      exact retained_applyConflict r hs

/-- C1: Route Store conflict policy.  In any store reached from empty by an
arbitrary sequence of intent insertions: a static/manual-origin stored
intent is never rejected (it is the applied one for its target_host); a
monitor-origin stored intent that coexists with a static/manual intent for
the same target_host is flagged rejected; and every stored intent stays
visible under any later insertion - an entry with its route_id remains in
the store, never silently dropped. -/
theorem routeStore_conflict_policy (rs : List RouteIntent) (s : StoredIntent)
    (hs : s ∈ buildStore rs) :
    (s.intent.origin ≠ Origin.monitor → s.rejected = false) ∧
    (s.intent.origin = Origin.monitor →
      (∃ t ∈ buildStore rs, t.intent.origin ≠ Origin.monitor ∧
        t.intent.target_host = s.intent.target_host) →
      s.rejected = true) ∧
    (∀ r : RouteIntent, ∃ s' ∈ buildStore (rs ++ [r]),
      s'.intent.route_id = s.intent.route_id) := by
  obtain ⟨inv1, inv2⟩ := storeInv_buildStore rs
  refine ⟨inv1 s hs, inv2 s hs, fun r => ?_⟩
  have hfold : buildStore (rs ++ [r]) = insertIntent (buildStore rs) r := by
    rw [buildStore, buildStore, List.foldl_append, List.foldl_cons, List.foldl_nil]
  rw [hfold]
  exact retained_insertIntent r hs

/-- Witness for C1: the store built from demoStatic then the colliding
demoMonitor, inspected at the stored monitor intent (flagged rejected). -/
theorem routeStore_conflict_policy_witness :
    (⟨demoMonitor, true⟩ : StoredIntent) ∈ buildStore [demoStatic, demoMonitor] ∧
    (((⟨demoMonitor, true⟩ : StoredIntent).intent.origin ≠ Origin.monitor →
        (⟨demoMonitor, true⟩ : StoredIntent).rejected = false) ∧
      ((⟨demoMonitor, true⟩ : StoredIntent).intent.origin = Origin.monitor →
        (∃ t ∈ buildStore [demoStatic, demoMonitor],
          t.intent.origin ≠ Origin.monitor ∧
          t.intent.target_host = (⟨demoMonitor, true⟩ : StoredIntent).intent.target_host) →
        (⟨demoMonitor, true⟩ : StoredIntent).rejected = true) ∧
      (∀ r : RouteIntent, ∃ s' ∈ buildStore ([demoStatic, demoMonitor] ++ [r]),
        s'.intent.route_id = (⟨demoMonitor, true⟩ : StoredIntent).intent.route_id)) :=
  ⟨by decide, routeStore_conflict_policy [demoStatic, demoMonitor] ⟨demoMonitor, true⟩ (by decide)⟩

theorem lookupBy_applyConflict_self (store : RouteStore) (r : RouteIntent) :
    ∃ s', lookupBy storedKey (applyConflict store r) r.route_id = some s' ∧
      s'.intent = r := by
  rw [applyConflict]
  by_cases h : r.origin = Origin.monitor
  · rw [if_pos h]
    exact ⟨_, lookupBy_upsertBy_self store _, rfl⟩
  · rw [if_neg h]
    exact ⟨_, lookupBy_upsertBy_self (flagMonitors store r.target_host) _, rfl⟩

/-- C3: version guard.  When the store already holds an intent for the
incoming intent's route_id, a strictly lower incoming version leaves the
store unchanged (the stale intent is discarded), while a version greater
than or equal to the stored one is accepted: the stored intent for that
route_id becomes the incoming intent. -/
theorem version_guard (store : RouteStore) (r : RouteIntent) (s : StoredIntent)
    (hlook : lookupBy storedKey store r.route_id = some s) :
    (r.version < s.intent.version → insertIntent store r = store) ∧
    (s.intent.version ≤ r.version →
      ∃ s', lookupBy storedKey (insertIntent store r) r.route_id = some s' ∧
        s'.intent = r) := by
  constructor
  · intro hv
    simp only [insertIntent, hlook, if_pos hv]
  · intro hv
    simp only [insertIntent, hlook, if_neg (Nat.not_lt.mpr hv)]
    exact lookupBy_applyConflict_self store r

/-- Witness for C3: a store holding demoStatic at version 1 discards the
stale version-0 copy and accepts a version-1 resubmission. -/
theorem version_guard_witness :
    lookupBy storedKey [(⟨demoStatic, false⟩ : StoredIntent)] demoStaleStatic.route_id =
      some ⟨demoStatic, false⟩ ∧
    ((demoStaleStatic.version < (⟨demoStatic, false⟩ : StoredIntent).intent.version →
        insertIntent [⟨demoStatic, false⟩] demoStaleStatic = [⟨demoStatic, false⟩]) ∧
      ((⟨demoStatic, false⟩ : StoredIntent).intent.version ≤ demoStaleStatic.version →
        ∃ s', lookupBy storedKey (insertIntent [⟨demoStatic, false⟩] demoStaleStatic)
            demoStaleStatic.route_id = some s' ∧ s'.intent = demoStaleStatic)) :=
  ⟨by decide, version_guard [⟨demoStatic, false⟩] demoStaleStatic ⟨demoStatic, false⟩ (by decide)⟩

theorem sep_infix_http (s : String) : strIncludes ("http://" ++ s) "://" = true := by
  rw [strIncludes, decide_eq_true_eq]
  refine ⟨"http".toList, s.toList, ?_⟩
  have h : ("http://" ++ s).toList = "http://".toList ++ s.toList := by
    simp [String.toList, String.data_append]
  have h2 : ("http://" : String).toList = "http".toList ++ "://".toList := by decide
  rw [h, h2, List.append_assoc]

/-- C8: formatUpstream totality and idempotence.  For every string s,
formatUpstream s = s when s contains "://" and "http://" ++ s otherwise;
the result always contains "://" and formatUpstream is idempotent. -/
theorem formatUpstream_spec (s : String) :
    (strIncludes s "://" = true → formatUpstream s = s) ∧
    (strIncludes s "://" = false → formatUpstream s = "http://" ++ s) ∧
    strIncludes (formatUpstream s) "://" = true ∧
    formatUpstream (formatUpstream s) = formatUpstream s := by
  by_cases h : strIncludes s "://" = true
  · refine ⟨fun _ => ?_, fun hf => ?_, ?_, ?_⟩
    · simp [formatUpstream, strIncludes] at h ⊢
      simp [h]
    · rw [h] at hf; cases hf
    · have he : formatUpstream s = s := by
        simp [formatUpstream, strIncludes] at h ⊢; simp [h]
      rw [he]; exact h
    · have he : formatUpstream s = s := by
        simp [formatUpstream, strIncludes] at h ⊢; simp [h]
      rw [he, he]
  · have hf : strIncludes s "://" = false := by
      cases hb : strIncludes s "://"
      · rfl
      · exact absurd hb h
    have he : formatUpstream s = "http://" ++ s := by
      simp [formatUpstream, strIncludes] at hf ⊢; simp [hf]
    refine ⟨fun ht => absurd ht h, fun _ => he, ?_, ?_⟩
    · rw [he]; exact sep_infix_http s
    · have h2 : strIncludes (formatUpstream s) "://" = true := by
        rw [he]; exact sep_infix_http s
      have h3 : formatUpstream (formatUpstream s) = formatUpstream s := by
        simp [formatUpstream, strIncludes] at h2 ⊢
        intro hc
        exact absurd h2 (by simp [formatUpstream, strIncludes, hc])
      exact h3

/-- Witness for C8 at the concrete input "backend:8080". -/
theorem formatUpstream_spec_witness :
    (strIncludes "backend:8080" "://" = true →
      formatUpstream "backend:8080" = "backend:8080") ∧
    (strIncludes "backend:8080" "://" = false →
      formatUpstream "backend:8080" = "http://" ++ "backend:8080") ∧
    strIncludes (formatUpstream "backend:8080") "://" = true ∧
    formatUpstream (formatUpstream "backend:8080") = formatUpstream "backend:8080" :=
  formatUpstream_spec "backend:8080"

theorem lookupBy_applyIntent_self (app : AppliedState) (r : RouteIntent) :
    ∃ a, lookupBy routeKey (applyIntent app r) r.route_id = some a ∧
      a.checksum = checksumOf r := by
  cases hl : lookupBy routeKey app r.route_id with
  | some a =>
    by_cases hc : a.checksum = checksumOf r
    · simp only [applyIntent, hl, if_pos hc]
      exact ⟨a, rfl, hc⟩
    · simp only [applyIntent, hl, if_neg hc]
      exact ⟨mkRoute r, lookupBy_upsertBy_self app (mkRoute r), rfl⟩
  | none =>
    simp only [applyIntent, hl]
    exact ⟨mkRoute r, lookupBy_upsertBy_self app (mkRoute r), rfl⟩

theorem pairwise_applyIntent {app : AppliedState} (r : RouteIntent)
    (h : KeysDistinct routeKey app) : KeysDistinct routeKey (applyIntent app r) := by
  cases hl : lookupBy routeKey app r.route_id with
  | some a =>
    by_cases hc : a.checksum = checksumOf r
    · simp only [applyIntent, hl, if_pos hc]
      exact h
    · simp only [applyIntent, hl, if_neg hc]
      exact pairwise_upsertBy (mkRoute r) h
  | none =>
    simp only [applyIntent, hl]
    exact pairwise_upsertBy (mkRoute r) h

/-- C4: idempotent apply.  Applying a RouteIntent twice equals applying it
once - the second apply finds a Route for the route_id whose checksum
already matches the intent's checksum, so it is a no-op - and when the
applied state has one Route per route_id, it still does after the apply:
no duplicate Route keyed by the same route_id is created. -/
theorem apply_idempotent (app : AppliedState) (r : RouteIntent)
    (hnodup : KeysDistinct routeKey app) :
    applyIntent (applyIntent app r) r = applyIntent app r ∧
    (∃ a, lookupBy routeKey (applyIntent app r) r.route_id = some a ∧
      a.checksum = checksumOf r) ∧
    KeysDistinct routeKey (applyIntent app r) := by
  obtain ⟨a, ha, hc⟩ := lookupBy_applyIntent_self app r
  refine ⟨?_, ⟨a, ha, hc⟩, pairwise_applyIntent r hnodup⟩
  set A := applyIntent app r with hA
  simp only [applyIntent, ha, if_pos hc]

/-- Witness for C4: applying demoManual to the empty applied state. -/
theorem apply_idempotent_witness :
    KeysDistinct routeKey ([] : AppliedState) ∧
    (applyIntent (applyIntent [] demoManual) demoManual = applyIntent [] demoManual ∧
      (∃ a, lookupBy routeKey (applyIntent [] demoManual) demoManual.route_id = some a ∧
        a.checksum = checksumOf demoManual) ∧
      KeysDistinct routeKey (applyIntent [] demoManual)) :=
  ⟨List.Pairwise.nil, apply_idempotent [] demoManual List.Pairwise.nil⟩

/-- C2: origin protection on deletion, and the actions column.  A DELETE on
a route_id whose stored intent is monitor-origin returns 403 with the store
unchanged; on a static/manual-origin intent it returns 204 and the route_id
is gone from the store.  The routes table's actions column renders the
managed-by-monitor note (no edit/delete controls) exactly for monitor rows
and the edit link plus delete button for every other row. -/
theorem origin_protection_delete (store : RouteStore) (rid : String) (s : StoredIntent)
    (hlook : lookupBy storedKey store rid = some s) :
    (s.intent.origin = Origin.monitor → deleteRoute store rid = (403, store)) ∧
    (s.intent.origin ≠ Origin.monitor →
      (deleteRoute store rid).1 = 204 ∧
      lookupBy storedKey (deleteRoute store rid).2 rid = none) ∧
    (∀ src r h : String,
      (src = "monitor" → actionsRenderer src r h = ActionsCell.managedByMonitor) ∧
      (src ≠ "monitor" →
        actionsRenderer src r h =
          ActionsCell.editDeleteControls ("/routes/edit/" ++ r) r h)) := by
  refine ⟨?_, ?_, ?_⟩
  · intro hm
    simp only [deleteRoute, hlook, if_pos hm]
  · intro hm
    have hd : deleteRoute store rid = (204, removeByKey storedKey store rid) := by
      simp only [deleteRoute, hlook, if_neg hm]
    rw [hd]
    exact ⟨rfl, lookupBy_removeByKey store rid⟩
  · intro src r h
    constructor
    · intro hs
      rw [actionsRenderer, if_pos hs]
    · intro hs
      rw [actionsRenderer, if_neg hs]

/-- Witness for C2: deleting the stored monitor-origin route r-mon. -/
theorem origin_protection_delete_witness :
    lookupBy storedKey [(⟨demoMonitor, true⟩ : StoredIntent)] "r-mon" =
      some ⟨demoMonitor, true⟩ ∧
    (((⟨demoMonitor, true⟩ : StoredIntent).intent.origin = Origin.monitor →
        deleteRoute [⟨demoMonitor, true⟩] "r-mon" = (403, [⟨demoMonitor, true⟩])) ∧
      ((⟨demoMonitor, true⟩ : StoredIntent).intent.origin ≠ Origin.monitor →
        (deleteRoute [⟨demoMonitor, true⟩] "r-mon").1 = 204 ∧
        lookupBy storedKey (deleteRoute [⟨demoMonitor, true⟩] "r-mon").2 "r-mon" = none) ∧
      (∀ src r h : String,
        (src = "monitor" → actionsRenderer src r h = ActionsCell.managedByMonitor) ∧
        (src ≠ "monitor" →
          actionsRenderer src r h =
            ActionsCell.editDeleteControls ("/routes/edit/" ++ r) r h))) :=
  ⟨by decide, origin_protection_delete [⟨demoMonitor, true⟩] "r-mon" ⟨demoMonitor, true⟩ (by decide)⟩

/-- C5: label contract for discovery.  A container start event yields a
RouteIntent only if the dcrp.enable label is present and parses to true and
the dcrp.host label is present; when dcrp.enable is absent or malformed or
dcrp.host is absent, the agent produces no intent and skips the container
with a warning (onContainerStart is total, so processing continues and is
never fatal). -/
theorem label_contract (hostId cid addr : String) (v : Nat)
    (labels : List (String × String)) :
    (∀ r, onContainerStart hostId cid addr v labels = DiscoveryResult.intent r →
      (∃ ev, lookupLabel labels "dcrp.enable" = some ev ∧ parseBoolLabel ev = some true) ∧
      ∃ h, lookupLabel labels "dcrp.host" = some h) ∧
    ((lookupLabel labels "dcrp.enable" = none ∨
      (∃ ev, lookupLabel labels "dcrp.enable" = some ev ∧ parseBoolLabel ev = none) ∨
      lookupLabel labels "dcrp.host" = none) →
      ∃ w, onContainerStart hostId cid addr v labels = DiscoveryResult.skipped w) := by
  constructor
  · intro r hr
    cases he : lookupLabel labels "dcrp.enable" with
    | none => simp [onContainerStart, he] at hr
    | some ev =>
      cases hpe : parseBoolLabel ev with
      | none => simp [onContainerStart, he, hpe] at hr
      | some bv =>
        cases bv with
        | false => simp [onContainerStart, he, hpe] at hr
        | true =>
          cases hh : lookupLabel labels "dcrp.host" with
          | none => simp [onContainerStart, he, hpe, hh] at hr
          | some h => exact ⟨⟨ev, rfl, hpe⟩, ⟨h, rfl⟩⟩
  · intro hcase
    rcases hcase with he | ⟨ev, he, hpe⟩ | hh
    · exact ⟨"container ignored: no dcrp.enable label", by simp [onContainerStart, he]⟩
    · exact ⟨"container skipped: malformed dcrp.enable label",
        by simp [onContainerStart, he, hpe]⟩
    · cases he : lookupLabel labels "dcrp.enable" with
      | none => exact ⟨"container ignored: no dcrp.enable label", by simp [onContainerStart, he]⟩
      | some ev =>
        cases hpe : parseBoolLabel ev with
        | none =>
          exact ⟨"container skipped: malformed dcrp.enable label",
            by simp [onContainerStart, he, hpe]⟩
        | some bv =>
          cases bv with
          | false =>
            exact ⟨"container ignored: dcrp.enable is not true",
              by simp [onContainerStart, he, hpe]⟩
          | true =>
            exact ⟨"container skipped: no dcrp.host label",
              by simp [onContainerStart, he, hpe, hh]⟩

/-- Witness for C5 at the routable demoLabels (and, through the same
theorem, at labels missing dcrp.enable). -/
theorem label_contract_witness :
    (∀ r, onContainerStart "local" "c1" "10.0.0.5" 1 demoLabels = DiscoveryResult.intent r →
      (∃ ev, lookupLabel demoLabels "dcrp.enable" = some ev ∧ parseBoolLabel ev = some true) ∧
      ∃ h, lookupLabel demoLabels "dcrp.host" = some h) ∧
    ((lookupLabel demoLabels "dcrp.enable" = none ∨
      (∃ ev, lookupLabel demoLabels "dcrp.enable" = some ev ∧ parseBoolLabel ev = none) ∨
      lookupLabel demoLabels "dcrp.host" = none) →
      ∃ w, onContainerStart "local" "c1" "10.0.0.5" 1 demoLabels = DiscoveryResult.skipped w) :=
  label_contract "local" "c1" "10.0.0.5" 1 demoLabels

/-- C6 counterexample: the dashboard pipeline (checkSystemStatus feeding
updateStatusIndicator in app.js) classifies a successful health response
with status offline as the error state, not as Offline - refuting the
claim that it classifies a response as Offline precisely when status
equals offline. -/
theorem health_pipeline_offline_counterexample :
    checkSystemStatus (some "offline") = Badge.error ∧
    ¬ checkSystemStatus (some "offline") = Badge.offline := by
  decide

/-- C6 (amended): every GET /health status is one of healthy, degraded,
offline; the checkSystemStatus pipeline classifies a response as Online
precisely when status equals healthy and as the error state otherwise
(both degraded and offline included); the Offline indicator is produced
only by the fetch-failure path, never by a status value. -/
theorem health_pipeline_amended (hosts : List ConnectionState) :
    (healthStatusString (healthAggregate hosts) = "healthy" ∨
      healthStatusString (healthAggregate hosts) = "degraded" ∨
      healthStatusString (healthAggregate hosts) = "offline") ∧
    (checkSystemStatus (some (healthStatusString (healthAggregate hosts))) = Badge.online ↔
      healthAggregate hosts = HealthStatus.healthy) ∧
    (checkSystemStatus (some (healthStatusString (healthAggregate hosts))) = Badge.error ↔
      ¬ healthAggregate hosts = HealthStatus.healthy) ∧
    checkSystemStatus none = Badge.offline := by
  cases hagg : healthAggregate hosts <;> decide

/-- Witness for C6 (amended) at one connected and one disconnected host
(the degraded aggregate). -/
theorem health_pipeline_amended_witness :
    (healthStatusString
        (healthAggregate [ConnectionState.connected, ConnectionState.disconnected]) =
      "healthy" ∨
      healthStatusString
        (healthAggregate [ConnectionState.connected, ConnectionState.disconnected]) =
      "degraded" ∨
      healthStatusString
        (healthAggregate [ConnectionState.connected, ConnectionState.disconnected]) =
      "offline") ∧
    (checkSystemStatus (some (healthStatusString
        (healthAggregate [ConnectionState.connected, ConnectionState.disconnected]))) =
        Badge.online ↔
      healthAggregate [ConnectionState.connected, ConnectionState.disconnected] =
        HealthStatus.healthy) ∧
    (checkSystemStatus (some (healthStatusString
        (healthAggregate [ConnectionState.connected, ConnectionState.disconnected]))) =
        Badge.error ↔
      ¬ healthAggregate [ConnectionState.connected, ConnectionState.disconnected] =
        HealthStatus.healthy) ∧
    checkSystemStatus none = Badge.offline :=
  health_pipeline_amended [ConnectionState.connected, ConnectionState.disconnected]

theorem lookupBy_setWorker_ne (ws : List (String × WorkerState)) (a b : String)
    (st : WorkerState) (hab : b ≠ a) :
    lookupBy workerKey (setWorker ws a st) b = lookupBy workerKey ws b := by
  induction ws with
  | nil => rfl
  | cons p ps ih =>
    have hmap : setWorker (p :: ps) a st =
        (if p.1 = a then (p.1, st) else p) :: setWorker ps a st := rfl
    rw [hmap]
    by_cases hp : p.1 = a
    · rw [if_pos hp, lookupBy, lookupBy]
      have hb1 : ¬ (workerKey (p.1, st) = b) := fun hc => hab (hc.symm.trans hp)
      have hb2 : ¬ (workerKey p = b) := fun hc => hab (hc.symm.trans hp)
      rw [if_neg hb1, if_neg hb2]
      exact ih
    · rw [if_neg hp, lookupBy, lookupBy]
      by_cases hb : workerKey p = b
      · rw [if_pos hb, if_pos hb]
      · rw [if_neg hb, if_neg hb]
        exact ih

theorem routesOf_append (l1 l2 : List MonitorRoute) (b : String) :
    routesOf (l1 ++ l2) b = routesOf l1 b ++ routesOf l2 b := by
  induction l1 with
  | nil => rfl
  | cons r rs ih =>
    rw [List.cons_append, routesOf, routesOf]
    by_cases h : r.origin_host = b
    · rw [if_pos h, if_pos h, ih, List.cons_append]
    · rw [if_neg h, if_neg h, ih]

theorem routesOf_keepRoutes (routes : List MonitorRoute) (a b : String)
    (running : List String) (hab : b ≠ a) :
    routesOf (keepRoutes routes a running) b = routesOf routes b := by
  induction routes with
  | nil => rfl
  | cons r rs ih =>
    rw [keepRoutes]
    by_cases hk : r.origin_host = a ∧ r.route_id ∉ running
    · rw [if_pos hk, ih, routesOf]
      have hnb : ¬ (r.origin_host = b) := fun hbr => hab (hbr.symm.trans hk.1)
      rw [if_neg hnb]
    · rw [if_neg hk, routesOf, routesOf]
      by_cases hbr : r.origin_host = b
      · rw [if_pos hbr, if_pos hbr, ih]
      · rw [if_neg hbr, if_neg hbr, ih]

theorem routesOf_map_new (running : List String) (a b : String) (hab : b ≠ a) :
    routesOf (running.map fun rid =>
      ({ route_id := rid, origin_host := a } : MonitorRoute)) b = [] := by
  induction running with
  | nil => rfl
  | cons x xs ih =>
    rw [List.map_cons, routesOf]
    have h : ¬ (({ route_id := x, origin_host := a } : MonitorRoute).origin_host = b) :=
      fun hbr => hab hbr.symm
    rw [if_neg h, ih]

/-- C7: host isolation.  Any host-scoped event on host a - stream
disconnect, SSH authentication failure, or reconnect resync - leaves the
worker of every other host b untouched and leaves the set of routes whose
origin is host b exactly as it was: none of b's routes is added, modified
or removed as a consequence of a's failure. -/
theorem host_isolation (sys : SystemState) (a b : String) (e : HostEvent) (hab : b ≠ a) :
    lookupBy workerKey (hostStep sys a e).workers b = lookupBy workerKey sys.workers b ∧
    routesOf (hostStep sys a e).routes b = routesOf sys.routes b := by
  cases e with
  | streamDisconnect =>
    exact ⟨lookupBy_setWorker_ne sys.workers a b _ hab, rfl⟩
  | authFailure =>
    exact ⟨lookupBy_setWorker_ne sys.workers a b _ hab, rfl⟩
  | resync running =>
    refine ⟨lookupBy_setWorker_ne sys.workers a b _ hab, ?_⟩
    show routesOf (keepRoutes sys.routes a running ++
      running.map fun rid => ({ route_id := rid, origin_host := a } : MonitorRoute)) b =
      routesOf sys.routes b
    rw [routesOf_append, routesOf_keepRoutes sys.routes a b running hab,
      routesOf_map_new running a b hab, List.append_nil]

/-- Witness for C7: disconnecting host-a's stream in the two-host
demoSystem leaves host-b's worker and routes unchanged. -/
theorem host_isolation_witness :
    ("host-b" : String) ≠ "host-a" ∧
    (lookupBy workerKey
        (hostStep demoSystem "host-a" HostEvent.streamDisconnect).workers "host-b" =
      lookupBy workerKey demoSystem.workers "host-b" ∧
      routesOf (hostStep demoSystem "host-a" HostEvent.streamDisconnect).routes "host-b" =
        routesOf demoSystem.routes "host-b") :=
  ⟨by decide, host_isolation demoSystem "host-a" "host-b" HostEvent.streamDisconnect (by decide)⟩

/-- C9: minimum column width.  On any mouse move during a resize drag,
doResize writes the new width (startWidth plus the horizontal delta) to
the header and all target-column cells only when it is at least 80 pixels;
a move that would go below 80 leaves the state untouched, so no doResize
call ever sets a column width below 80 pixels. -/
theorem doResize_min_width (st : ResizeState) (pageX : Int) :
    (st.startWidth + (pageX - st.startX) < 80 → doResize st pageX = st) ∧
    (st.isResizing = true → st.hasHeader = true →
      80 ≤ st.startWidth + (pageX - st.startX) →
      (doResize st pageX).headerWidth = st.startWidth + (pageX - st.startX) ∧
      ∀ w ∈ (doResize st pageX).cellWidths, w = st.startWidth + (pageX - st.startX)) ∧
    (doResize st pageX = st ∨
      (80 ≤ (doResize st pageX).headerWidth ∧
        ∀ w ∈ (doResize st pageX).cellWidths, 80 ≤ w)) := by
  by_cases hg : (!st.isResizing || !st.hasHeader) = true
  · have hd : doResize st pageX = st := by
      simp [doResize, hg]
    refine ⟨fun _ => hd, fun hR hH _ => ?_, Or.inl hd⟩
    exfalso
    rw [hR, hH] at hg
    simp at hg
  · by_cases hw : st.startWidth + (pageX - st.startX) < 80
    · have hd : doResize st pageX = st := by
        simp [doResize, hg, hw]
      exact ⟨fun _ => hd, fun _ _ hge => absurd hw (not_lt.mpr hge), Or.inl hd⟩
    · have hd : doResize st pageX =
          { st with
            headerWidth := st.startWidth + (pageX - st.startX),
            cellWidths := st.cellWidths.map fun _ => st.startWidth + (pageX - st.startX) } := by
        simp [doResize, hg, hw]
      have hge : (80 : Int) ≤ st.startWidth + (pageX - st.startX) := not_lt.mp hw
      refine ⟨fun hlt => absurd hlt hw, fun _ _ _ => ?_, Or.inr ?_⟩
      · rw [hd]
        refine ⟨rfl, fun w hwmem => ?_⟩
        rcases List.mem_map.mp hwmem with ⟨c, _, hcw⟩
        exact hcw.symm
      · rw [hd]
        refine ⟨hge, fun w hwmem => ?_⟩
        rcases List.mem_map.mp hwmem with ⟨c, _, hcw⟩
        rw [← hcw]
        exact hge

/-- Witness for C9: a drag anchored at width 100 moved 30 pixels left
(would give 70, below the minimum) leaves the state unchanged. -/
theorem doResize_min_width_witness :
    ((⟨true, true, 0, 100, 100, [100, 100]⟩ : ResizeState).startWidth +
        ((-30 : Int) - (⟨true, true, 0, 100, 100, [100, 100]⟩ : ResizeState).startX) < 80 →
      doResize ⟨true, true, 0, 100, 100, [100, 100]⟩ (-30) =
        ⟨true, true, 0, 100, 100, [100, 100]⟩) ∧
    ((⟨true, true, 0, 100, 100, [100, 100]⟩ : ResizeState).isResizing = true →
      (⟨true, true, 0, 100, 100, [100, 100]⟩ : ResizeState).hasHeader = true →
      80 ≤ (⟨true, true, 0, 100, 100, [100, 100]⟩ : ResizeState).startWidth +
        ((-30 : Int) - (⟨true, true, 0, 100, 100, [100, 100]⟩ : ResizeState).startX) →
      (doResize ⟨true, true, 0, 100, 100, [100, 100]⟩ (-30)).headerWidth =
        (⟨true, true, 0, 100, 100, [100, 100]⟩ : ResizeState).startWidth +
          ((-30 : Int) - (⟨true, true, 0, 100, 100, [100, 100]⟩ : ResizeState).startX) ∧
      ∀ w ∈ (doResize ⟨true, true, 0, 100, 100, [100, 100]⟩ (-30)).cellWidths,
        w = (⟨true, true, 0, 100, 100, [100, 100]⟩ : ResizeState).startWidth +
          ((-30 : Int) - (⟨true, true, 0, 100, 100, [100, 100]⟩ : ResizeState).startX)) ∧
    (doResize ⟨true, true, 0, 100, 100, [100, 100]⟩ (-30) =
        ⟨true, true, 0, 100, 100, [100, 100]⟩ ∨
      (80 ≤ (doResize ⟨true, true, 0, 100, 100, [100, 100]⟩ (-30)).headerWidth ∧
        ∀ w ∈ (doResize ⟨true, true, 0, 100, 100, [100, 100]⟩ (-30)).cellWidths, 80 ≤ w)) :=
  doResize_min_width ⟨true, true, 0, 100, 100, [100, 100]⟩ (-30)

/-- C10: sort order reversal.  The sortRoutes comparator under direction
desc is the exact negation of the comparator under asc on every pair; the
comparison depends only on the lowercased dataset values (so it is
case-insensitive, and a missing value compares as the empty string); and
on rows with distinct lowercased keys the sign flips, so desc produces the
reverse relative order of asc. -/
theorem sortRoutes_compare (a b a' b' : Option String)
    (ha : strToLower (a.getD "") = strToLower (a'.getD ""))
    (hb : strToLower (b.getD "") = strToLower (b'.getD "")) :
    rowCompare "desc" a b = - rowCompare "asc" a b ∧
    rowCompare "asc" a b = rowCompare "asc" a' b' ∧
    rowCompare "desc" a b = rowCompare "desc" a' b' ∧
    (strToLower (a.getD "") ≠ strToLower (b.getD "") →
      (rowCompare "asc" a b < 0 ↔ 0 < rowCompare "desc" a b)) ∧
    rowCompare "asc" none b = rowCompare "asc" (some "") b := by
  refine ⟨?_, ?_, ?_, ?_, rfl⟩
  · simp [rowCompare]
  · simp only [rowCompare]
    rw [ha, hb]
  · simp only [rowCompare]
    rw [ha, hb]
  · intro hne
    rcases lt_trichotomy (strToLower (a.getD "")) (strToLower (b.getD "")) with hlt | heq | hgt
    · have h1 : rowCompare "asc" a b = -1 := by
        simp [rowCompare, hlt]
      have h2 : rowCompare "desc" a b = 1 := by
        simp [rowCompare, hlt]
      rw [h1, h2]
      constructor
      · intro _
        norm_num
      · intro _
        norm_num
    · exact absurd heq hne
    · have hnlt : ¬ (strToLower (a.getD "") < strToLower (b.getD "")) := not_lt.mpr hgt.le
      have h1 : rowCompare "asc" a b = 1 := by
        simp [rowCompare, hnlt, hgt]
      have h2 : rowCompare "desc" a b = -1 := by
        simp [rowCompare, hnlt, hgt]
      rw [h1, h2]
      constructor
      · intro h3
        exact absurd h3 (by norm_num)
      · intro h3
        exact absurd h3 (by norm_num)

/-- Witness for C10 on mixed-case values Alpha/beta against their
lowercase and uppercase variants. -/
theorem sortRoutes_compare_witness :
    strToLower ((some "Alpha" : Option String).getD "") =
      strToLower ((some "alpha" : Option String).getD "") ∧
    strToLower ((some "beta" : Option String).getD "") =
      strToLower ((some "BETA" : Option String).getD "") ∧
    (rowCompare "desc" (some "Alpha") (some "beta") =
        - rowCompare "asc" (some "Alpha") (some "beta") ∧
      rowCompare "asc" (some "Alpha") (some "beta") =
        rowCompare "asc" (some "alpha") (some "BETA") ∧
      rowCompare "desc" (some "Alpha") (some "beta") =
        rowCompare "desc" (some "alpha") (some "BETA") ∧
      (strToLower ((some "Alpha" : Option String).getD "") ≠
          strToLower ((some "beta" : Option String).getD "") →
        (rowCompare "asc" (some "Alpha") (some "beta") < 0 ↔
          0 < rowCompare "desc" (some "Alpha") (some "beta"))) ∧
      rowCompare "asc" none (some "beta") = rowCompare "asc" (some "") (some "beta")) :=
  ⟨by decide, by decide,
    sortRoutes_compare (some "Alpha") (some "beta") (some "alpha") (some "BETA")
      (by decide) (by decide)⟩

end DCRP
